import Mathlib

/-!
Verification of the term-extraction batch client
(`src/term_extractor.py`) and its JSON repair utilities
(`src/json_utils.py`) against the repository's specification.

The development shallowly embeds the Python code:

* Python/JSON values are the inductive `JVal`; Python `dict`s are
  association lists in insertion order with overwrite-on-repeated-key
  (`insertA`), matching CPython semantics.
* `json.loads` (Python standard library) is modelled by the executable
  recursive-descent reader `loads`.  Numeric literals are modelled as
  integers: no claim depends on fractional values.  `str`/`repr`/
  `json.dumps` are modelled by `pyStr`/`pyRepr`/`jsonDumps` (string
  escaping inside `repr`/`dumps` output is elided; no claim inspects
  those strings).
* The concrete regular expressions of `json_utils.py` are translated one
  by one into executable character scanners (`rule1F`, `quoteKeysF`,
  `quoteValuesF`, `rule4F`, `rule5F`, `kvPairsF`, `stripFencesF`,
  `removeLineCommentsF`, `removeLitWsF`, `replaceList`, `collapseSpTab`);
  each scanner reproduces the leftmost, continue-after-match semantics of
  `re.sub`/`re.findall` for its pattern.  Scanners use a character fuel
  (`length + 1` suffices, as every step consumes at least one character).
* The external `json_repair` library (used only when installed,
  `HAS_JSON_REPAIR`) and `ast.literal_eval` (Python standard library) are
  taken as parameters `rf : String → String` and
  `le : String → Option JVal` of the repair chain; the repository's own
  built-in fallback implementation (`json_utils.repair_json`,
  lines 24-101) is translated as `repair_json` and used as the concrete
  instantiation.  Theorems about the chain hold for every `rf`/`le`.
* Exceptions are modelled by `Option`: a Python code path that raises to
  its caller returns `none`.
* In `term_extractor.py` the statement
  `from json_utils import fix_json_response, parse_json_safely, is_likely_json`
  raises `ImportError` because `parse_json_safely` and `is_likely_json`
  are not defined in `json_utils.py`; hence `HAS_JSON_UTILS` is `False`
  and `_process_api_response` runs its standard-parse fallback (methods
  2 and 3).  Method 3's pattern uses `(?R)`, which Python's `re` module
  rejects with `re.error`; the bare `except` swallows it, so method 3
  never changes the result.  `process_api_response` models this.
* Wall-clock time, file I/O, logging and progress-callback arithmetic
  (floats) are not modelled; the polling loop `waitForBatch` keeps the
  observable schedule (remote calls, sleep durations, reported terminal
  condition) and takes the stop flag and the remote status as functions
  of the tick index.
-/

namespace TE

/-- Python/JSON values: `None`, `bool`, `int`, `str`, `list`, `dict`
(association list in insertion order). -/
inductive JVal where
  | null
  | bool (b : Bool)
  | num (n : Int)
  | str (s : String)
  | arr (xs : List JVal)
  | obj (fields : List (String × JVal))

mutual

/-- Structural equality on `JVal`, modelling Python `==` on these values. -/
def beqJ : JVal → JVal → Bool
  | .null, .null => true
  | .bool a, .bool b => a == b
  | .num a, .num b => a == b
  | .str a, .str b => a == b
  | .arr a, .arr b => beqL a b
  | .obj a, .obj b => beqF a b
  | _, _ => false

def beqL : List JVal → List JVal → Bool
  | [], [] => true
  | a :: as, b :: bs => beqJ a b && beqL as bs
  | _, _ => false

def beqF : List (String × JVal) → List (String × JVal) → Bool
  | [], [] => true
  | (k1, v1) :: as, (k2, v2) :: bs => k1 == k2 && beqJ v1 v2 && beqF as bs
  | _, _ => false

end

/-- Python truthiness of a `JVal` (`if result:`-style tests). -/
def truthy : JVal → Bool
  | .null => false
  | .bool b => b
  | .num n => n != 0
  | .str s => s != ""
  | .arr xs => !xs.isEmpty
  | .obj fs => !fs.isEmpty

/-- Dictionary lookup (first, and only, binding of a key). -/
def lookupA (k : String) : List (String × JVal) → Option JVal
  | [] => none
  | (k2, v) :: rest => if k2 = k then some v else lookupA k rest

/-- Dictionary update `d[k] = v`: overwrite in place if present, else append
(CPython insertion-order semantics). -/
def insertA (k : String) (v : JVal) : List (String × JVal) → List (String × JVal)
  | [] => [(k, v)]
  | (k2, v2) :: rest => if k2 = k then (k2, v) :: rest else (k2, v2) :: insertA k v rest

/-- Lookup in a string-valued dictionary (normalized term records). -/
def lookupS (k : String) : List (String × String) → Option String
  | [] => none
  | (k2, v) :: rest => if k2 = k then some v else lookupS k rest

mutual

/-- Python `repr` of a value (string escaping elided; not inspected by any
claim). -/
def pyRepr : JVal → String
  | .null => "None"
  | .bool true => "True"
  | .bool false => "False"
  | .num n => toString n
  | .str s => "'" ++ s ++ "'"
  | .arr xs => "[" ++ String.intercalate ", " (pyReprList xs) ++ "]"
  | .obj fs => "\x7b" ++ String.intercalate ", " (pyReprPairs fs) ++ "\x7d"

def pyReprList : List JVal → List String
  | [] => []
  | v :: vs => pyRepr v :: pyReprList vs

def pyReprPairs : List (String × JVal) → List String
  | [] => []
  | (k, v) :: rest => ("'" ++ k ++ "': " ++ pyRepr v) :: pyReprPairs rest

end

/-- Python `str` of a value: identity on strings, `repr` otherwise. -/
def pyStr : JVal → String
  | .str s => s
  | v => pyRepr v

mutual

/-- Model of `json.dumps` with its default separators (used only to build
the first component of `try_parse_ast_to_json`'s result; never parsed or
inspected by a claim). -/
def jsonDumps : JVal → String
  | .null => "null"
  | .bool true => "true"
  | .bool false => "false"
  | .num n => toString n
  | .str s => "\"" ++ s ++ "\""
  | .arr xs => "[" ++ String.intercalate ", " (jsonDumpsList xs) ++ "]"
  | .obj fs => "\x7b" ++ String.intercalate ", " (jsonDumpsPairs fs) ++ "\x7d"

def jsonDumpsList : List JVal → List String
  | [] => []
  | v :: vs => jsonDumps v :: jsonDumpsList vs

def jsonDumpsPairs : List (String × JVal) → List String
  | [] => []
  | (k, v) :: rest => ("\"" ++ k ++ "\": " ++ jsonDumps v) :: jsonDumpsPairs rest

end

/-- Python (and `re`) whitespace `\s`: space, tab, newline, carriage
return, vertical tab, form feed. -/
def isPyWs (c : Char) : Bool :=
  c == ' ' || c == '\t' || c == '\n' || c == '\r' || c == '\x0b' || c == '\x0c'

/-- `[a-zA-Z0-9_]` of the bare-key/bare-value regexes. -/
def isIdentChar (c : Char) : Bool := c.isAlpha || c.isDigit || c == '_'

/-- Python `str.strip()` on a character list. -/
def pyStripL (cs : List Char) : List Char :=
  ((cs.dropWhile isPyWs).reverse.dropWhile isPyWs).reverse

/-- Python `str.strip()`. -/
def pyStrip (s : String) : String := String.mk (pyStripL s.toList)

/-- Whether `p` is a prefix of `cs` (Python `str.startswith`, list level). -/
def isPrefixList : List Char → List Char → Bool
  | [], _ => true
  | _ :: _, [] => false
  | p :: ps, c :: cs => p == c && isPrefixList ps cs

/-- Python `str.startswith`. -/
def pyStartsWith (p s : String) : Bool := isPrefixList p.toList s.toList

/-- Substring test (Python `needle in hay` for strings), list level. -/
def containsSub (needle : List Char) : List Char → Bool
  | [] => needle.isEmpty
  | c :: cs => isPrefixList needle (c :: cs) || containsSub needle cs

/-- Index of the first occurrence of `c` (Python `str.find`, `none` = -1). -/
def findIdxChar (c : Char) : List Char → Option Nat
  | [] => none
  | d :: ds => if d == c then some 0 else (findIdxChar c ds).map (fun i => i + 1)

/-- Index of the last occurrence of `c` (Python `str.rfind`, `none` = -1). -/
def rfindIdxChar (c : Char) (cs : List Char) : Option Nat :=
  (findIdxChar c cs.reverse).map (fun i => cs.length - 1 - i)

/-- Python slice `cs[a:b]` (empty when `b ≤ a`). -/
def pySlice (a b : Nat) (cs : List Char) : List Char := (cs.drop a).take (b - a)

/-- Minimum of two optional indices, `none` playing `float('inf')`. -/
def optMin : Option Nat → Option Nat → Option Nat
  | none, b => b
  | some x, none => some x
  | some x, some y => some (min x y)

/-- Maximum of two optional indices, `none` playing `-1`. -/
def optMax : Option Nat → Option Nat → Option Nat
  | none, b => b
  | some x, none => some x
  | some x, some y => some (max x y)

/-- Worker for `replaceList`: the `Nat` is the count of characters still to
be skipped after a replacement was emitted. -/
def replaceAux (old new : List Char) : Nat → List Char → List Char
  | 0, [] => []
  | 0, c :: cs =>
    if !old.isEmpty && isPrefixList old (c :: cs) then
      new ++ replaceAux old new (old.length - 1) cs
    else c :: replaceAux old new 0 cs
  | _ + 1, [] => []
  | k + 1, _ :: cs => replaceAux old new k cs

/-- Python `str.replace(old, new)`: leftmost, non-overlapping, replace all
occurrences, continue after each replacement. -/
def replaceList (old new cs : List Char) : List Char := replaceAux old new 0 cs

/-- Python `str.replace` on strings. -/
def pyReplace (old new : String) (s : String) : String :=
  String.mk (replaceList old.toList new.toList s.toList)

/-- Worker for `collapseSpTab`; the flag records whether we are inside a
run of spaces/tabs. -/
def collapseAux : Bool → List Char → List Char
  | _, [] => []
  | inRun, c :: cs =>
    if c == ' ' || c == '\t' then
      if inRun then collapseAux true cs else ' ' :: collapseAux true cs
    else c :: collapseAux false cs

/-- `re.sub(r'[ \t]+', ' ', ·)`: collapse every run of spaces/tabs to one
space (`json_utils.py:197`). -/
def collapseSpTab (cs : List Char) : List Char := collapseAux false cs

/-- `re.sub(lit + r"\s*", "", ·)` for a literal `lit`: remove every
occurrence of the literal together with the following whitespace run
(the four Markdown-fence patterns of `json_utils.py:175-180`). -/
def removeLitWsF (lit : List Char) : Nat → List Char → List Char
  | 0, cs => cs
  | _ + 1, [] => []
  | fuel + 1, c :: cs =>
    if !lit.isEmpty && isPrefixList lit (c :: cs) then
      removeLitWsF lit fuel (((c :: cs).drop lit.length).dropWhile isPyWs)
    else c :: removeLitWsF lit fuel cs

/-- JSON whitespace accepted by `json.loads`. -/
def isJsonWs (c : Char) : Bool := c == ' ' || c == '\t' || c == '\n' || c == '\r'

def skipWs : List Char → List Char
  | [] => []
  | c :: cs => if isJsonWs c then skipWs cs else c :: cs

/-- JSON string escapes accepted by `json.loads`. -/
def escChar : Char → Option Char
  | '"' => some '"'
  | '\\' => some '\\'
  | '/' => some '/'
  | 'b' => some (Char.ofNat 8)
  | 'f' => some (Char.ofNat 12)
  | 'n' => some '\n'
  | 'r' => some '\r'
  | 't' => some '\t'
  | _ => none

def hexVal (c : Char) : Option Nat :=
  if c.isDigit then some (c.toNat - 48)
  else if 'a' ≤ c ∧ c ≤ 'f' then some (c.toNat - 87)
  else if 'A' ≤ c ∧ c ≤ 'F' then some (c.toNat - 55)
  else none

/-- Read the body of a JSON string after its opening quote; returns the
decoded characters and the input past the closing quote. -/
def parseJString : List Char → Option (List Char × List Char)
  | [] => none
  | '"' :: rest => some ([], rest)
  | '\\' :: 'u' :: h1 :: h2 :: h3 :: h4 :: rest =>
    match hexVal h1, hexVal h2, hexVal h3, hexVal h4 with
    | some a, some b, some c, some d =>
      (parseJString rest).map (fun p => (Char.ofNat (((a * 16 + b) * 16 + c) * 16 + d) :: p.1, p.2))
    | _, _, _, _ => none
  | '\\' :: e :: rest =>
    match escChar e with
    | some c => (parseJString rest).map (fun p => (c :: p.1, p.2))
    | none => none
  | c :: rest => (parseJString rest).map (fun p => (c :: p.1, p.2))

def spanDigits : List Char → List Char × List Char
  | [] => ([], [])
  | c :: cs => if c.isDigit then (let p := spanDigits cs; (c :: p.1, p.2)) else ([], c :: cs)

def digitsToNat (ds : List Char) : Nat := ds.foldl (fun acc c => acc * 10 + (c.toNat - 48)) 0

/-- Integer JSON numbers (fractions/exponents out of scope: no claim
depends on non-integral numeric values). -/
def parseNumber : List Char → Option (JVal × List Char)
  | '-' :: rest =>
    let p := spanDigits rest
    if p.1.isEmpty then none else some (.num (-(Int.ofNat (digitsToNat p.1))), p.2)
  | cs =>
    let p := spanDigits cs
    if p.1.isEmpty then none else some (.num (Int.ofNat (digitsToNat p.1)), p.2)

mutual

/-- Recursive-descent JSON value reader (fuelled; `length + 1` fuel always
suffices since every recursive step consumes input). -/
def parseValue : Nat → List Char → Option (JVal × List Char)
  | 0, _ => none
  | fuel + 1, cs =>
    match skipWs cs with
    | 'n' :: 'u' :: 'l' :: 'l' :: rest => some (.null, rest)
    | 't' :: 'r' :: 'u' :: 'e' :: rest => some (.bool true, rest)
    | 'f' :: 'a' :: 'l' :: 's' :: 'e' :: rest => some (.bool false, rest)
    | '"' :: rest => (parseJString rest).map (fun p => (.str (String.mk p.1), p.2))
    | '[' :: rest =>
      (match skipWs rest with
       | ']' :: r2 => some (.arr [], r2)
       | _ => parseElems fuel rest [])
    | '{' :: rest =>
      (match skipWs rest with
       | '}' :: r2 => some (.obj [], r2)
       | _ => parseMembers fuel rest [])
    | cs2 => parseNumber cs2

def parseElems : Nat → List Char → List JVal → Option (JVal × List Char)
  | 0, _, _ => none
  | fuel + 1, cs, acc =>
    match parseValue fuel cs with
    | none => none
    | some (v, r1) =>
      match skipWs r1 with
      | ',' :: r2 => parseElems fuel r2 (acc ++ [v])
      | ']' :: r2 => some (.arr (acc ++ [v]), r2)
      | _ => none

def parseMembers : Nat → List Char → List (String × JVal) → Option (JVal × List Char)
  | 0, _, _ => none
  | fuel + 1, cs, acc =>
    match skipWs cs with
    | '"' :: r0 =>
      match parseJString r0 with
      | none => none
      | some (kcs, r1) =>
        match skipWs r1 with
        | ':' :: r2 =>
          match parseValue fuel r2 with
          | none => none
          | some (v, r3) =>
            match skipWs r3 with
            | ',' :: r4 => parseMembers fuel r4 (insertA (String.mk kcs) v acc)
            | '}' :: r4 => some (.obj (insertA (String.mk kcs) v acc), r4)
            | _ => none
        | _ => none
    | _ => none

end

/-- Model of `json.loads`: one JSON document, nothing but whitespace after
it; failure (`Python json.JSONDecodeError`) is `none`. -/
def loads (s : String) : Option JVal :=
  match parseValue (s.length + 1) s.toList with
  | some (v, rest) => if (skipWs rest).isEmpty then some v else none
  | none => none

/-- Scan for the single quote closing a single-quoted span: the content may
not contain a quote, and the closing quote must not be preceded by a
backslash (the `(?<!\\)` lookbehind); `none` when no such closing quote
exists, in which case the regex match at this opening fails. -/
def scanCloseQuote (cs : List Char) : Option (List Char × List Char) :=
  let content := cs.takeWhile (fun c => !(c == '\''))
  match cs.drop content.length with
  | '\'' :: after =>
    match content.getLast? with
    | some '\\' => none
    | _ => some (content, after)
  | _ => none

/-- `re.sub(r"(?<!\\)'([^']*?)(?<!\\)'", r'"\1"', ·)`
(`json_utils.py:60`): replace single-quoted spans by double-quoted ones.
The `Option Char` is the character before the current position in the
original string, for the lookbehind. -/
def rule1F : Nat → Option Char → List Char → List Char
  | 0, _, cs => cs
  | _ + 1, _, [] => []
  | fuel + 1, prev, '\'' :: rest =>
    if prev == some '\\' then '\'' :: rule1F fuel (some '\'') rest
    else
      match scanCloseQuote rest with
      | some (content, after) => '"' :: content ++ '"' :: rule1F fuel (some '\'') after
      | none => '\'' :: rule1F fuel (some '\'') rest
  | fuel + 1, _, c :: rest => c :: rule1F fuel (some c) rest

/-- `re.sub(r'([{,]\s*)([a-zA-Z0-9_]+)(\s*:)', r'\1"\2"\3', ·)`
(`json_utils.py:63` and the manual-fix pass `json_utils.py:239`): quote
bare object keys. -/
def quoteKeysF : Nat → List Char → List Char
  | 0, cs => cs
  | _ + 1, [] => []
  | fuel + 1, c :: cs =>
    if c == '{' || c == ',' then
      let ws1 := cs.takeWhile isPyWs
      let r1 := cs.drop ws1.length
      let ident := r1.takeWhile isIdentChar
      let r2 := (r1.drop ident.length).takeWhile isPyWs
      let r3 := (r1.drop ident.length).drop r2.length
      match r3 with
      | ':' :: rest =>
        if ident.isEmpty then c :: quoteKeysF fuel cs
        else c :: ws1 ++ '"' :: ident ++ '"' :: r2 ++ ':' :: quoteKeysF fuel rest
      | _ => c :: quoteKeysF fuel cs
    else c :: quoteKeysF fuel cs

/-- `re.sub(r':\s*([a-zA-Z][a-zA-Z0-9_]*)\s*([,}])', r': "\1"\2', ·)`
(`json_utils.py:66` and the manual-fix pass `json_utils.py:241`): quote
bare alphabetic values. -/
def quoteValuesF : Nat → List Char → List Char
  | 0, cs => cs
  | _ + 1, [] => []
  | fuel + 1, ':' :: rest =>
    (let r1 := rest.drop (rest.takeWhile isPyWs).length
     match r1 with
     | c :: _ =>
       if c.isAlpha then
         let ident := r1.takeWhile isIdentChar
         let r2 := r1.drop ident.length
         let r3 := r2.drop (r2.takeWhile isPyWs).length
         match r3 with
         | d :: rest2 =>
           if d == ',' || d == '}' then
             ':' :: ' ' :: '"' :: ident ++ '"' :: d :: quoteValuesF fuel rest2
           else ':' :: quoteValuesF fuel rest
         | [] => ':' :: quoteValuesF fuel rest
       else ':' :: quoteValuesF fuel rest
     | [] => ':' :: quoteValuesF fuel rest)
  | fuel + 1, c :: cs => c :: quoteValuesF fuel cs

/-- `re.sub(r',\s*([}\]])', r'\1', ·)` (`json_utils.py:69`): drop a comma
(and following whitespace) directly before a closing brace or bracket. -/
def rule4F : Nat → List Char → List Char
  | 0, cs => cs
  | _ + 1, [] => []
  | fuel + 1, ',' :: rest =>
    (match rest.drop (rest.takeWhile isPyWs).length with
     | c :: rest2 =>
       if c == '}' || c == ']' then c :: rule4F fuel rest2
       else ',' :: rule4F fuel rest
     | [] => ',' :: rule4F fuel rest)
  | fuel + 1, c :: cs => c :: rule4F fuel cs

/-- First-character class `[^",{\[\]\s]` of the rule-5 regex. -/
def isRule5Start (c : Char) : Bool :=
  !(c == '"' || c == ',' || c == '{' || c == '[' || c == ']' || isPyWs c)

/-- Closing class `[,}\]]` of the rule-5 regex. -/
def isRule5Close (c : Char) : Bool := c == ',' || c == '}' || c == ']'

/-- `re.sub(r':\s*([^",{\[\]\s][^,}\]]*?)([,}\]])', r': "\1"\2', ·)`
(`json_utils.py:72`): quote whatever non-quoted material stands between a
colon and the next comma/closing delimiter. -/
def rule5F : Nat → List Char → List Char
  | 0, cs => cs
  | _ + 1, [] => []
  | fuel + 1, ':' :: rest =>
    (let r1 := rest.drop (rest.takeWhile isPyWs).length
     match r1 with
     | c :: cr =>
       if isRule5Start c then
         let more := cr.takeWhile (fun d => !(isRule5Close d))
         match cr.drop more.length with
         | d :: rest2 => ':' :: ' ' :: '"' :: (c :: more) ++ '"' :: d :: rule5F fuel rest2
         | [] => ':' :: rule5F fuel rest
       else ':' :: rule5F fuel rest
     | [] => ':' :: rule5F fuel rest)
  | fuel + 1, c :: cs => c :: rule5F fuel cs

/-- The repository's built-in `repair_json` (`json_utils.py:24-101`), the
fallback used when the external `json_repair` library is absent, on the
`return_objects=False` path taken by `try_parse_json_object`
(`json_utils.py:215`): the five `re.sub` repairs in order, then append
whatever closing braces/brackets are missing by count. -/
def repair_json (json_str : String) : String :=
  if json_str = "" then "\x7b\x7d"
  else
    let l0 := json_str.toList
    let l1 := rule1F (l0.length + 1) none l0
    let l2 := quoteKeysF (l1.length + 1) l1
    let l3 := quoteValuesF (l2.length + 1) l2
    let l4 := rule4F (l3.length + 1) l3
    let l5 := rule5F (l4.length + 1) l4
    String.mk (l5 ++ List.replicate (l5.count '{' - l5.count '}') '}'
      ++ List.replicate (l5.count '[' - l5.count ']') ']')

/-- `try_parse_ast_to_json` (`json_utils.py:104-125`): run the literal
evaluator `le` (modelling `ast.literal_eval`, `none` = exception); keep a
dict result, rebuilding its JSON text with `json.dumps`; anything else
(or a failure) yields the input string and an empty dict. -/
def try_parse_ast_to_json (le : String → Option JVal) (s : String) : String × JVal :=
  match le s with
  | some (JVal.obj m) => (jsonDumps (JVal.obj m), JVal.obj m)
  | _ => (s, JVal.obj [])

/-- The JSON-part extraction of `try_parse_json_object`
(`json_utils.py:156-168`): `re.search(r"\{.*\}", ·, re.DOTALL)` matches
exactly when some `{` precedes some `}`, and the leftmost greedy match
runs from the first `{` to the last `}`; likewise for brackets.  The
loop breaks at the first pattern that matches. -/
def spanBetween (o c : Char) (cs : List Char) : Option (List Char) :=
  match findIdxChar o cs, rfindIdxChar c cs with
  | some i, some j => if i < j then some (pySlice i (j + 1) cs) else none
  | _, _ => none

def extractSpan (s : String) : String :=
  match spanBetween '{' '}' s.toList with
  | some e => String.mk e
  | none =>
    match spanBetween '[' ']' s.toList with
    | some e => String.mk e
    | none => s

/-- The cleaning step of `try_parse_json_object` (`json_utils.py:172-199`):
strip Markdown fences, undo doubled braces and quote-bracket artifacts,
turn backslashes into spaces, strip, and collapse space/tab runs. -/
def cleanJsonStr (s : String) : String :=
  let c1 := removeLitWsF ("```json".toList) (s.toList.length + 1) s.toList
  let c2 := removeLitWsF ("```".toList) (c1.length + 1) c1
  let c3 := removeLitWsF ("~~~json".toList) (c2.length + 1) c2
  let c4 := removeLitWsF ("~~~".toList) (c3.length + 1) c3
  let c5 := replaceList ("\x7b\x7b".toList) ("\x7b".toList) c4
  let c6 := replaceList ("\x7d\x7d".toList) ("\x7d".toList) c5
  let c7 := replaceList ("\"[\x7b".toList) ("[\x7b".toList) c6
  let c8 := replaceList ("\x7d]\"".toList) ("\x7d]".toList) c7
  let c9 := replaceList ("\\".toList) (" ".toList) c8
  String.mk (collapseSpTab (pyStripL c9))

/-- `re.findall(r'"([^"]+)"\s*:\s*"([^"]+)"', ·)` (`json_utils.py:251-252`):
all non-overlapping quoted key/value pairs, left to right. -/
def kvPairsF : Nat → List Char → List (String × String)
  | 0, _ => []
  | _ + 1, [] => []
  | fuel + 1, '"' :: rest =>
    (let k := rest.takeWhile (fun c => !(c == '"'))
     if k.isEmpty then kvPairsF fuel rest
     else
       match rest.drop k.length with
       | '"' :: r2 =>
         (match r2.drop (r2.takeWhile isPyWs).length with
          | ':' :: r3 =>
            (match r3.drop (r3.takeWhile isPyWs).length with
             | '"' :: r4 =>
               (let v := r4.takeWhile (fun c => !(c == '"'))
                if v.isEmpty then kvPairsF fuel rest
                else
                  match r4.drop v.length with
                  | '"' :: r5 => (String.mk k, String.mk v) :: kvPairsF fuel r5
                  | _ => kvPairsF fuel rest)
             | _ => kvPairsF fuel rest)
          | _ => kvPairsF fuel rest)
       | _ => kvPairsF fuel rest)
  | fuel + 1, _ :: cs => kvPairsF fuel cs

/-- Assemble the salvaged pairs into a dict (`json_utils.py:254-258`),
later keys overwriting earlier ones as in a Python dict. -/
def buildFallback (ps : List (String × String)) : List (String × JVal) :=
  ps.foldl (fun acc p => insertA p.1 (JVal.str p.2) acc) []

/-- The manual-fix pass of `try_parse_json_object`
(`json_utils.py:238-241`): quote bare keys, then bare values. -/
def manualFix (s : String) : String :=
  let l1 := quoteKeysF (s.toList.length + 1) s.toList
  String.mk (quoteValuesF (l1.length + 1) l1)

/-- The repair cascade of `try_parse_json_object` after the direct parse
gave nothing truthy (`json_utils.py:155-264`): extract a JSON-looking
span, clean it, retry the parse, then `repair_json` (`rf`), then the AST
literal fallback (`le`), then the manual regex fix, and finally key/value
salvage into a dict (empty when nothing is found). -/
def try_parse_rest (rf : String → String) (le : String → Option JVal)
    (input_str : String) : String × JVal :=
  let cleaned := cleanJsonStr (extractSpan input_str)
  match loads cleaned with
  | some v => (cleaned, v)
  | none =>
    let fixedJson := rf cleaned
    match loads fixedJson with
    | some v => (fixedJson, v)
    | none =>
      let astPair := try_parse_ast_to_json le cleaned
      if truthy astPair.2 then astPair
      else
        let manual := manualFix cleaned
        match loads manual with
        | some v => (manual, v)
        | none =>
          (cleaned, JVal.obj (buildFallback (kvPairsF (cleaned.toList.length + 1) cleaned.toList)))

/-- `try_parse_json_object` (`json_utils.py:128-264`), parameterized by the
`repair_json` in effect (`rf`) and the literal evaluator (`le`).  An empty
input returns `("", {})` at once; a direct parse is returned only when its
value is truthy (`if result:` at `json_utils.py:152`), so falsy parses fall
through to the repair cascade. -/
def try_parse_json_object (rf : String → String) (le : String → Option JVal)
    (input_str : String) : String × JVal :=
  if input_str = "" then ("", JVal.obj [])
  else
    match loads input_str with
    | some v => if truthy v then (input_str, v) else try_parse_rest rf le input_str
    | none => try_parse_rest rf le input_str

/-- The prefix/suffix trimming of `fix_json_response`
(`json_utils.py:281-298`): cut to the span from the first `{`/`[` to the
last `}`/`]` whenever both exist and the span is proper (Python slicing
makes the cut empty when the end precedes the start). -/
def trimContent (content : String) : String :=
  let cs := content.toList
  match optMin (findIdxChar '{' cs) (findIdxChar '[' cs),
        optMax (rfindIdxChar '}' cs) (rfindIdxChar ']' cs) with
  | some js, some je =>
    if js > 0 ∨ je + 1 < cs.length then String.mk (pySlice js (je + 1) cs) else content
  | _, _ => content

/-- The dict-coercion step of `fix_json_response` (`json_utils.py:306-316`):
a list is wrapped under the first expected key (or "items"), any other
non-dict under an error shape carrying `str(content)`. -/
def ensureDictResult (result : JVal) (trimmed : String) (expected_keys : List String) : JVal :=
  match result with
  | JVal.obj m => JVal.obj m
  | JVal.arr l =>
    match expected_keys with
    | k :: _ => JVal.obj [(k, JVal.arr l)]
    | [] => JVal.obj [("items", JVal.arr l)]
  | _ => JVal.obj [("error", JVal.str "返回的不是JSON对象"), ("content", JVal.str trimmed)]

/-- The expected-key completion of `fix_json_response`
(`json_utils.py:318-323`): append an empty list for every expected key
still missing. -/
def addMissingKeys (m : List (String × JVal)) : List String → List (String × JVal)
  | [] => m
  | k :: ks => addMissingKeys (if (lookupA k m).isSome then m else m ++ [(k, JVal.arr [])]) ks

/-- `fix_json_response` (`json_utils.py:266-328`): trim to the JSON-looking
span, run the repair chain, coerce to a dict, and complete the expected
keys (the completion loop is guarded by the truthiness of
`expected_keys`, so an empty list adds nothing). -/
def fix_json_response (rf : String → String) (le : String → Option JVal)
    (content : String) (expected_keys : List String) : JVal :=
  let trimmed := trimContent content
  let asDict := ensureDictResult (try_parse_json_object rf le trimmed).2 trimmed expected_keys
  if expected_keys.isEmpty then asDict
  else
    match asDict with
    | JVal.obj m => JVal.obj (addMissingKeys m expected_keys)
    | other => other

/-- `re.sub(r'```json|\s*```', '', ·)` (`term_extractor.py:625`): drop
literal ```` ```json ```` fences, else any whitespace run followed by
```` ``` ```` (alternation tried left to right at each position). -/
def stripFencesF : Nat → List Char → List Char
  | 0, cs => cs
  | _ + 1, [] => []
  | fuel + 1, c :: cs =>
    if isPrefixList ("```json".toList) (c :: cs) then stripFencesF fuel ((c :: cs).drop 7)
    else
      let ws := (c :: cs).takeWhile isPyWs
      if isPrefixList ("```".toList) ((c :: cs).drop ws.length) then
        stripFencesF fuel ((c :: cs).drop (ws.length + 3))
      else c :: stripFencesF fuel cs

/-- `re.sub(r'//.*?$', '', ·, flags=re.MULTILINE)` (`term_extractor.py:626`):
on each line, drop everything from the first `//` to the line end. -/
def removeLineCommentsF : Nat → List Char → List Char
  | 0, cs => cs
  | _ + 1, [] => []
  | _ + 1, ['/'] => ['/']
  | fuel + 1, '/' :: '/' :: cs => removeLineCommentsF fuel (cs.dropWhile (fun c => !(c == '\n')))
  | fuel + 1, c :: cs => c :: removeLineCommentsF fuel cs

/-- Method 2 of `_process_api_response` (`term_extractor.py:622-629`):
fence stripping then line-comment removal, before a standard parse. -/
def method2Clean (content : String) : String :=
  let l1 := stripFencesF (content.toList.length + 1) content.toList
  String.mk (removeLineCommentsF (l1.length + 1) l1)

/-- Python `"terms" in result` (`term_extractor.py:651`), whose meaning
depends on the type of `result`: key test on a dict, membership on a
list, substring test on a string, and a `TypeError` (`none`) on anything
else. -/
def pyContainsTerms : JVal → Option Bool
  | JVal.obj m => some (lookupA "terms" m).isSome
  | JVal.arr l => some (l.any (fun x => beqJ x (JVal.str "terms")))
  | JVal.str s => some (containsSub ("terms".toList) s.toList)
  | _ => none

/-- Python iteration over the extracted `terms` value
(`term_extractor.py:657`): a list yields its elements, a string its
characters, a dict its keys; other values raise `TypeError` (`none`). -/
def termIter : JVal → Option (List JVal)
  | JVal.arr l => some l
  | JVal.str s => some (s.toList.map (fun c => JVal.str (String.mk [c])))
  | JVal.obj m => some (m.map (fun p => JVal.str p.1))
  | _ => none

/-- Synonym lists of `_normalize_term`'s field mapping
(`term_extractor.py:676-680`), in source order. -/
def termSynKeys : List String := ["term", "术语", "name", "名称", "术语名称", "术语名"]

def typeSynKeys : List String := ["type", "类型", "术语类型"]

def contextSynKeys : List String := ["context", "上下文", "句子", "sentence"]

/-- First synonym key present with a truthy value, converted with `str`
(`term_extractor.py:683-687`). -/
def resolveField (ks : List String) (m : List (String × JVal)) : Option String :=
  match ks with
  | [] => none
  | k :: rest =>
    match lookupA k m with
    | some v => if truthy v then some (pyStr v) else resolveField rest m
    | none => resolveField rest m

/-- First truthy value of the dict, in insertion order
(`term_extractor.py:691-695`). -/
def firstTruthy : List (String × JVal) → Option JVal
  | [] => none
  | (_, v) :: rest => if truthy v then some v else firstTruthy rest

def optPair (k : String) : Option String → List (String × String)
  | some s => [(k, s)]
  | none => []

/-- `_normalize_term` (`term_extractor.py:659-701`): a bare string becomes
`{term: value}`; a non-dict is `str`-converted; a dict has its `term`,
`type`, `context` fields resolved through the synonym lists, and when no
`term` resolves it falls back to the dict's first truthy value and then
to the sentinel "未知术语". -/
def normalize_term : JVal → List (String × String)
  | JVal.str s => [("term", s)]
  | JVal.obj m =>
    let base := optPair "term" (resolveField termSynKeys m)
      ++ optPair "type" (resolveField typeSynKeys m)
      ++ optPair "context" (resolveField contextSynKeys m)
    if (lookupS "term" base).isSome then base
    else
      match firstTruthy m with
      | some v => base ++ [("term", pyStr v)]
      | none => base ++ [("term", "未知术语")]
  | v => [("term", pyStr v)]

/-- `_process_api_response` (`term_extractor.py:603-657`) as it runs in the
repository: `HAS_JSON_UTILS` is `False` (the import of
`parse_json_safely`/`is_likely_json` fails), so method 1 is skipped;
method 2 cleans and parses; method 3's `(?R)` pattern raises `re.error`
into a bare `except` and never contributes.  `none` models a `TypeError`
escaping to the caller (`"terms" in result` on a non-container, or
`result["terms"]` on a list/str); its caller `parse_batch_results`
catches per line.  A failed parse returns zero records. -/
def process_api_response (content : String) : Option (List (List (String × String))) :=
  if content = "" ∨ pyStrip content = "" then some []
  else
    match loads (method2Clean content) with
    | none => some []
    | some result =>
      match pyContainsTerms result with
      | none => none
      | some true =>
        (match result with
         | JVal.obj m =>
           (match lookupA "terms" m with
            | some terms =>
              (match termIter terms with
               | some l => some ((l.filter truthy).map normalize_term)
               | none => none)
            | none => none)
         | _ => none)
      | some false =>
        (match result with
         | JVal.arr l => some ((l.filter truthy).map normalize_term)
         | _ => some [])

/-- Python `'-' in custom_id`. -/
def containsHyphen (cs : List Char) : Bool := cs.any (fun c => c == '-')

/-- Python `custom_id.split('-')[0]`: the segment before the first hyphen. -/
def beforeHyphen (cs : List Char) : List Char := cs.takeWhile (fun c => !(c == '-'))

/-- Python `str.isdigit` (ASCII digits; non-empty). -/
def pyIsDigitStr (cs : List Char) : Bool := !cs.isEmpty && cs.all (fun c => c.isDigit)

/-- The correlation-id resolution of `parse_batch_results`
(`term_extractor.py:540-557`): an id starting with "request-row" has
every occurrence of that tag removed (`str.replace`); otherwise an id
containing a hyphen whose first segment is all digits resolves to that
segment; every other id passes through unchanged. -/
def parseRowId (custom_id : String) : String :=
  if pyStartsWith "request-row" custom_id then
    String.mk (replaceList ("request-row".toList) [] custom_id.toList)
  else if containsHyphen custom_id.toList && pyIsDigitStr (beforeHyphen custom_id.toList) then
    String.mk (beforeHyphen custom_id.toList)
  else custom_id

/-- The fixed extraction prompt template of `_create_extraction_prompt`
(`term_extractor.py:320-357`), with the per-row text appended at the end
(doubled braces of the Python f-string render as single braces). -/
def extractionPromptHead : String :=
  "# 角色：RPG游戏术语提取器\n\n# 任务\n1. 从下面给定的游戏文本中提取所有RPG游戏术语和专有名词\n2. 提取对象：技能名称、职业名称、物品名称、地名、角色名、怪物名等\n3. 排除一般常用词汇和非术语性表达\n4. 如果文本本身就是术语，也要提取\n5. 严禁重复提取相同术语\n6. 严禁编造或生成不存在于给定文本中的术语\n7. 必须为每个术语提供类型信息\n\n# 术语类型示例\n- 技能：表示游戏中的能力、招式、法术\n- 职业：表示游戏中的角色职业、定位\n- 物品：表示游戏中的道具、装备、消耗品\n- 地点：表示游戏中的地区、场景、位置\n- 角色：表示游戏中的NPC、主角、配角\n- 怪物：表示游戏中的敌人、BOSS\n- 系统：表示游戏机制、界面元素、功能\n- 其他：如果不属于以上类型，请分类为其他\n\n# 输出格式\n\x7b\"terms\": [\n  \x7b\"term\": \"术语1\", \"type\": \"类型1\", \"context\": \"出现上下文\"\x7d, \n  \x7b\"term\": \"术语2\", \"type\": \"类型2\", \"context\": \"出现上下文\"\x7d\n]\x7d\n\n# 说明\n1. 只输出JSON格式结果，不要添加额外解释\n2. 术语必须来自给定文本，不要编造\n3. 只提取游戏相关的专业术语，不提取普通词汇\n4. 如果给定文本中没有游戏相关术语，返回空数组: \x7b\"terms\": []\x7d\n5. 必须为每个术语提供一个类型，如\"技能\"、\"物品\"、\"地点\"等\n\n# 需要提取的文本：\n"

def createExtractionPrompt (text_content : String) : String :=
  extractionPromptHead ++ text_content

/-- One line of the batch-request payload (the fields that vary per row;
method, url, model and sampling parameters are fixed literals,
`term_extractor.py:291-304`). -/
structure BatchRequest where
  custom_id : String
  user_prompt : String
deriving DecidableEq

/-- The row loop of `prepare_batch_jsonl` (`term_extractor.py:242-318`):
rows are the per-row joined text contents in order, `idx` their
position; the stop event ends the loop early; rows whose text is empty
or whitespace-only after stripping are skipped and produce no record;
retained rows get `custom_id = "request-row" + idx`. -/
def prepareRows (stop : Nat → Bool) : Nat → List String → List BatchRequest
  | _, [] => []
  | idx, text :: rest =>
    if stop idx then []
    else if text = "" ∨ pyStrip text = "" then prepareRows stop (idx + 1) rest
    else
      { custom_id := "request-row" ++ toString idx,
        user_prompt := createExtractionPrompt text } :: prepareRows stop (idx + 1) rest

/-- `prepare_batch_jsonl`: the function returns the payload path in every
case — also when every row was skipped and the payload holds zero
records; it signals no "empty batch" condition. -/
def prepare_batch_jsonl (stop : Nat → Bool) (rows : List String) : List BatchRequest :=
  prepareRows stop 0 rows

/-- What `process_data` does with the prepared payload
(`term_extractor.py:134-143`): it uploads it and creates the batch job
unconditionally; `emptyBatchRejected` is the explicit "empty batch"
condition the specification asks for, which no code path produces. -/
inductive SubmitOutcome where
  | uploaded (records : List BatchRequest)
  | emptyBatchRejected
deriving DecidableEq

def submitBatch (stop : Nat → Bool) (rows : List String) : SubmitOutcome :=
  SubmitOutcome.uploaded (prepare_batch_jsonl stop rows)

/-- The fields of the status snapshot consumed by the client
(`check_batch_status`, `term_extractor.py:460-468`). -/
structure BatchStatus where
  status : String
  output_file_id : Option String
  error : Option String
deriving DecidableEq

/-- What `process_data` does after `_wait_for_batch_completion` returns
(`term_extractor.py:149-163`): `abortNoDownload` for a `None` result or a
non-completed status (the wait loop already reported cancellation or
failure); `completedWithoutOutput` for a completed status whose
`output_file_id` is falsy — the path that logs and reports
"未找到输出文件ID" and returns without downloading; `download` otherwise. -/
inductive AfterWaitAction where
  | abortNoDownload
  | completedWithoutOutput
  | download (file_id : String)
deriving DecidableEq

def afterWait : Option BatchStatus → AfterWaitAction
  | none => AfterWaitAction.abortNoDownload
  | some st =>
    if st.status ≠ "completed" then AfterWaitAction.abortNoDownload
    else
      match st.output_file_id with
      | none => AfterWaitAction.completedWithoutOutput
      | some fid =>
        if fid = "" then AfterWaitAction.completedWithoutOutput
        else AfterWaitAction.download fid

/-- The terminal condition `_wait_for_batch_completion` reports
(`term_extractor.py:179-240`): `cancelled` is the stop-event path
(status callback "用户已取消操作", Python return `None`); `completed`
returns the snapshot; `failedTerminal` is the failed/canceled path
(status callback "批处理任务失败: …", Python return `None`);
`fuelExhausted` marks a run cut off by fuel — the loop itself has no
exit of its own. -/
inductive WaitResult where
  | cancelled
  | completed (st : BatchStatus)
  | failedTerminal (st : BatchStatus)
  | fuelExhausted
deriving DecidableEq

/-- Observable trace of one run of the polling loop: the reported terminal
condition, how many `check_batch_status` calls were made, and the
`time.sleep` durations in order. -/
structure WaitTrace where
  result : WaitResult
  remoteCalls : Nat
  sleeps : List Nat
deriving DecidableEq

/-- `_wait_for_batch_completion` (`term_extractor.py:179-240`), driven by
the stop flag and the remote status as functions of the tick index
(`iteration` in the source): check the stop event first, then poll; a
completed status returns the snapshot, failed/canceled report failure;
otherwise sleep 5 seconds while `iteration < 3` and 15 thereafter, and
loop.  The `while True` loop has no timeout of its own; the fuel only
truncates the model's view of an infinite run. -/
def waitForBatch (stop : Nat → Bool) (statusAt : Nat → BatchStatus) : Nat → Nat → WaitTrace
  | _, 0 => { result := WaitResult.fuelExhausted, remoteCalls := 0, sleeps := [] }
  | iteration, fuel + 1 =>
    if stop iteration then { result := WaitResult.cancelled, remoteCalls := 0, sleeps := [] }
    else
      let st := statusAt iteration
      if st.status = "completed" then
        { result := WaitResult.completed st, remoteCalls := 1, sleeps := [] }
      else if st.status = "failed" ∨ st.status = "canceled" then
        { result := WaitResult.failedTerminal st, remoteCalls := 1, sleeps := [] }
      else
        let rest := waitForBatch stop statusAt (iteration + 1) fuel
        { result := rest.result,
          remoteCalls := rest.remoteCalls + 1,
          sleeps := (if iteration < 3 then 5 else 15) :: rest.sleeps }

/-- A stop flag that is never set. -/
def neverStop : Nat → Bool := fun _ => false

/-- A remote job that reports `running` at every poll. -/
def alwaysRunning : Nat → BatchStatus :=
  fun _ => { status := "running", output_file_id := none, error := none }

/-- A literal evaluator that always fails, the behaviour of
`ast.literal_eval` on every input used in the concrete instances below. -/
def noLitEval : String → Option JVal := fun _ => none


/-! Helper lemmas shared by the claim theorems. -/

theorem aux_isPrefix_append (p rest : List Char) : isPrefixList p (p ++ rest) = true := by
  induction p with
  | nil => rfl
  | cons c cs ih => simp [isPrefixList, ih]

theorem aux_replaceAux_skip (old new xs rest : List Char) :
    replaceAux old new xs.length (xs ++ rest) = replaceAux old new 0 rest := by
  induction xs with
  | nil => rfl
  | cons c cs ih => simpa [replaceAux] using ih

theorem aux_replace_head (o : Char) (os new rest : List Char) :
    replaceAux (o :: os) new 0 ((o :: os) ++ rest) = new ++ replaceAux (o :: os) new 0 rest := by
  have hpre : isPrefixList (o :: os) (o :: (os ++ rest)) = true := by
    have := aux_isPrefix_append (o :: os) rest
    rwa [List.cons_append] at this
  have step : replaceAux (o :: os) new 0 ((o :: os) ++ rest)
      = new ++ replaceAux (o :: os) new ((o :: os).length - 1) (os ++ rest) := by
    rw [List.cons_append]
    simp [replaceAux, hpre]
  rw [step]
  have hlen : (o :: os).length - 1 = os.length := by simp
  rw [hlen, aux_replaceAux_skip]

theorem aux_replace_no_occur (o : Char) (os new : List Char) :
    ∀ cs : List Char, (∀ c ∈ cs, c ≠ o) → replaceAux (o :: os) new 0 cs = cs := by
  intro cs
  induction cs with
  | nil => intro _; rfl
  | cons c rest ih =>
    intro h
    have hco : (o == c) = false := by
      have := h c (List.mem_cons_self c rest)
      simp [BEq.comm]
      exact fun hh => absurd hh.symm this
    have hpre : isPrefixList (o :: os) (c :: rest) = false := by
      simp [isPrefixList, hco]
    simp [replaceAux, hpre, ih (fun x hx => h x (List.mem_cons_of_mem c hx))]

theorem aux_lookup_append_isSome (k : String) :
    ∀ (m m2 : List (String × JVal)), (lookupA k m).isSome → lookupA k (m ++ m2) = lookupA k m := by
  intro m
  induction m with
  | nil => intro m2 h; simp [lookupA] at h
  | cons p rest ih =>
    intro m2 h
    obtain ⟨k2, v⟩ := p
    by_cases hk : k2 = k
    · simp [lookupA, hk]
    · simp only [lookupA, if_neg hk] at h
      simp only [List.cons_append, lookupA, if_neg hk]
      exact ih m2 h

theorem aux_lookup_append_none (k : String) :
    ∀ (m m2 : List (String × JVal)), lookupA k m = none → lookupA k (m ++ m2) = lookupA k m2 := by
  intro m
  induction m with
  | nil => intro m2 _; rfl
  | cons p rest ih =>
    intro m2 h
    obtain ⟨k2, v⟩ := p
    by_cases hk : k2 = k
    · simp [lookupA, hk] at h
    · simp only [lookupA, if_neg hk] at h
      simp only [List.cons_append, lookupA, if_neg hk]
      exact ih m2 h

theorem aux_addMissing_lookup_eq (k : String) :
    ∀ (keys : List String) (m : List (String × JVal)), (lookupA k m).isSome →
      lookupA k (addMissingKeys m keys) = lookupA k m := by
  intro keys
  induction keys with
  | nil => intro m _; rfl
  | cons k2 ks ih =>
    intro m h
    cases h2 : (lookupA k2 m).isSome with
    | true =>
      simp only [addMissingKeys, h2, if_true]
      exact ih m h
    | false =>
      have hm2 : (lookupA k (m ++ [(k2, JVal.arr [])])).isSome := by
        rw [aux_lookup_append_isSome k m _ h]; exact h
      simp only [addMissingKeys, h2, Bool.false_eq_true, if_false]
      rw [ih _ hm2, aux_lookup_append_isSome k m _ h]

theorem aux_addMissing_mem (k : String) :
    ∀ (keys : List String) (m : List (String × JVal)), k ∈ keys →
      (lookupA k (addMissingKeys m keys)).isSome := by
  intro keys
  induction keys with
  | nil => intro m h; exact absurd h (List.not_mem_nil k)
  | cons k2 ks ih =>
    intro m h
    rcases List.mem_cons.mp h with heq | hks
    · subst heq
      cases h2 : (lookupA k m).isSome with
      | true =>
        simp only [addMissingKeys, h2, if_true]
        rw [aux_addMissing_lookup_eq k ks m h2]; exact h2
      | false =>
        have hnone : lookupA k m = none := by
          cases hx : lookupA k m
          · rfl
          · rw [hx] at h2; exact absurd h2 (by simp)
        have hsome : (lookupA k (m ++ [(k, JVal.arr [])])).isSome := by
          rw [aux_lookup_append_none k m _ hnone]; simp [lookupA]
        simp only [addMissingKeys, h2, Bool.false_eq_true, if_false]
        rw [aux_addMissing_lookup_eq k ks _ hsome]; exact hsome
    · simp only [addMissingKeys]
      exact ih _ hks

theorem aux_ensure_obj (r : JVal) (trimmed : String) (keys : List String) :
    ∃ m, ensureDictResult r trimmed keys = JVal.obj m := by
  cases r with
  | obj m => exact ⟨m, rfl⟩
  | arr l =>
    cases keys with
    | nil => exact ⟨_, rfl⟩
    | cons k ks => exact ⟨_, rfl⟩
  | null => exact ⟨_, rfl⟩
  | bool b => exact ⟨_, rfl⟩
  | num n => exact ⟨_, rfl⟩
  | str s => exact ⟨_, rfl⟩

theorem aux_fix_eq (rf : String → String) (le : String → Option JVal) (content : String)
    (k : String) (ks : List String) (m0 : List (String × JVal))
    (h : ensureDictResult (try_parse_json_object rf le (trimContent content)).2
          (trimContent content) (k :: ks) = JVal.obj m0) :
    fix_json_response rf le content (k :: ks) = JVal.obj (addMissingKeys m0 (k :: ks)) := by
  simp only [fix_json_response]
  rw [h]
  rfl

theorem aux_wait_step (stop : Nat → Bool) (statusAt : Nat → BatchStatus) (i n : Nat) :
    waitForBatch stop statusAt i (n + 1) =
      if stop i then { result := WaitResult.cancelled, remoteCalls := 0, sleeps := [] }
      else if (statusAt i).status = "completed" then
        { result := WaitResult.completed (statusAt i), remoteCalls := 1, sleeps := [] }
      else if (statusAt i).status = "failed" ∨ (statusAt i).status = "canceled" then
        { result := WaitResult.failedTerminal (statusAt i), remoteCalls := 1, sleeps := [] }
      else
        { result := (waitForBatch stop statusAt (i + 1) n).result,
          remoteCalls := (waitForBatch stop statusAt (i + 1) n).remoteCalls + 1,
          sleeps := (if i < 3 then 5 else 15) :: (waitForBatch stop statusAt (i + 1) n).sleeps } :=
  rfl

theorem aux_sleeps_schedule (stop : Nat → Bool) (statusAt : Nat → BatchStatus) :
    ∀ (fuel i : Nat),
      (waitForBatch stop statusAt i fuel).sleeps =
        (List.range (waitForBatch stop statusAt i fuel).sleeps.length).map
          (fun j => if i + j < 3 then 5 else 15) := by
  intro fuel
  induction fuel with
  | zero => intro i; rfl
  | succ n ih =>
    intro i
    rw [aux_wait_step]
    by_cases h1 : stop i = true
    · rw [if_pos h1]; rfl
    · rw [if_neg h1]
      by_cases h2 : (statusAt i).status = "completed"
      · rw [if_pos h2]; rfl
      · rw [if_neg h2]
        by_cases h3 : (statusAt i).status = "failed" ∨ (statusAt i).status = "canceled"
        · rw [if_pos h3]; rfl
        · rw [if_neg h3]
          have htail : (waitForBatch stop statusAt (i + 1) n).sleeps
              = ((List.range (waitForBatch stop statusAt (i + 1) n).sleeps.length).map
                  Nat.succ).map (fun j => if i + j < 3 then 5 else 15) := by
            rw [List.map_map]
            conv_lhs => rw [ih (i + 1)]
            apply List.map_congr_left
            intro j _
            have harith : i + 1 + j = i + (j + 1) := by omega
            simp [Function.comp, harith]
          show (if i < 3 then 5 else 15) :: (waitForBatch stop statusAt (i + 1) n).sleeps
              = (List.range ((if i < 3 then 5 else 15)
                  :: (waitForBatch stop statusAt (i + 1) n).sleeps).length).map
                  (fun j => if i + j < 3 then 5 else 15)
          rw [List.length_cons, List.range_succ_eq_map, List.map_cons]
          simp only [Nat.add_zero]
          exact congrArg (List.cons _) htail

/-- Claim C1: if the remote job reaches status `completed` but the status
snapshot carries no output file reference (`output_file_id` absent or
empty, both falsy in Python), `process_data` takes the distinct
"未找到输出文件ID" path — not the silent-success path and not the generic
failure path — and no download call is made. -/
theorem c1_completed_without_output (st : BatchStatus)
    (h1 : st.status = "completed")
    (h2 : st.output_file_id = none ∨ st.output_file_id = some "") :
    afterWait (some st) = AfterWaitAction.completedWithoutOutput ∧
    afterWait (some st) ≠ AfterWaitAction.abortNoDownload ∧
    ∀ fid, afterWait (some st) ≠ AfterWaitAction.download fid := by
  have hmain : afterWait (some st) = AfterWaitAction.completedWithoutOutput := by
    rcases h2 with h2 | h2 <;> simp [afterWait, h1, h2]
  refine ⟨hmain, ?_, ?_⟩
  · rw [hmain]; exact fun hh => nomatch hh
  · intro fid; rw [hmain]; exact fun hh => nomatch hh

theorem c1_completed_without_output_witness :
    (({ status := "completed", output_file_id := none, error := none } : BatchStatus).status
        = "completed") ∧
    afterWait (some { status := "completed", output_file_id := none, error := none })
      = AfterWaitAction.completedWithoutOutput :=
  ⟨rfl, (c1_completed_without_output
      { status := "completed", output_file_id := none, error := none } rfl (Or.inl rfl)).1⟩

/-- Claim C3: if the cancellation signal is set before a poll tick, the
polling loop exits at once without making that tick's remote status call
(zero further remote calls), and the reported outcome is `cancelled`,
a condition distinct from the failure one. -/
theorem c3_cancel_halts_polling (stop : Nat → Bool) (statusAt : Nat → BatchStatus)
    (i fuel : Nat) (h : stop i = true) :
    waitForBatch stop statusAt i (fuel + 1)
      = { result := WaitResult.cancelled, remoteCalls := 0, sleeps := [] } ∧
    ∀ st, WaitResult.cancelled ≠ WaitResult.failedTerminal st := by
  constructor
  · simp [waitForBatch, h]
  · intro st hh; exact nomatch hh

theorem c3_cancel_halts_polling_witness :
    ((fun _ : Nat => true) 2 = true) ∧
    waitForBatch (fun _ => true) alwaysRunning 2 (7 + 1)
      = { result := WaitResult.cancelled, remoteCalls := 0, sleeps := [] } :=
  ⟨rfl, (c3_cancel_halts_polling (fun _ => true) alwaysRunning 2 7 rfl).1⟩

/-- Claim C7, amended: the polling loop exposes no maximum poll duration;
for a job that never reaches a terminal status and is never cancelled it
keeps polling without bound — one remote status call per tick, for as
many ticks as the model's fuel allows, never transitioning to a
timeout failure. -/
theorem c7_no_poll_timeout_amended :
    ∀ (fuel i : Nat),
      (waitForBatch neverStop alwaysRunning i fuel).result = WaitResult.fuelExhausted ∧
      (waitForBatch neverStop alwaysRunning i fuel).remoteCalls = fuel := by
  intro fuel
  induction fuel with
  | zero => intro i; exact ⟨rfl, rfl⟩
  | succ n ih =>
    intro i
    have hrest := ih (i + 1)
    constructor
    · simp [waitForBatch, neverStop, alwaysRunning, hrest.1]
    · simp [waitForBatch, neverStop, alwaysRunning, hrest.2]

/-- Claim C7, counterexample: a job stuck at status `running` with no
cancellation has been polled 50 times and the loop is still going — the
outcome is fuel exhaustion of the model, not any `Failed("timeout")`
transition (no such transition exists in `waitForBatch`, faithfully to
the `while True` loop of the source). -/
theorem c7_no_poll_timeout_counterexample :
    (waitForBatch neverStop alwaysRunning 0 50).result = WaitResult.fuelExhausted ∧
    (waitForBatch neverStop alwaysRunning 0 50).remoteCalls = 50 ∧
    (waitForBatch neverStop alwaysRunning 0 50).result
      ≠ WaitResult.failedTerminal
          { status := "failed", output_file_id := none, error := some "timeout" } := by
  refine ⟨by decide, by decide, by decide⟩

/-- Claim C8: in every run of the polling loop, the suspension before the
j-th re-poll (0-based) is 5 seconds for the first three re-polls and
15 seconds for every later one. -/
theorem c8_poll_schedule (stop : Nat → Bool) (statusAt : Nat → BatchStatus) (fuel : Nat) :
    (waitForBatch stop statusAt 0 fuel).sleeps =
      (List.range (waitForBatch stop statusAt 0 fuel).sleeps.length).map
        (fun j => if j < 3 then 5 else 15) := by
  have h := aux_sleeps_schedule stop statusAt fuel 0
  simpa using h

/-- Claim C2: the repair entry point `fix_json_response` is total and
always returns a dict-shaped value, for every input string and every
repair-library/literal-evaluator instantiation (never raises — the Lean
embedding is a total function mirroring the source's catch-all handlers);
when the repair cascade is exhausted and yields the empty object, the
result is at worst an empty object (the expected keys added as empty
lists), and the live response processor reports zero term records on an
unparseable response instead of aborting. -/
theorem c2_repair_never_fails (rf : String → String) (le : String → Option JVal)
    (content : String) (keys : List String) :
    (∃ m, fix_json_response rf le content keys = JVal.obj m) ∧
    ((try_parse_json_object rf le (trimContent content)).2 = JVal.obj [] →
       fix_json_response rf le content [] = JVal.obj []) ∧
    ((try_parse_json_object rf le (trimContent content)).2 = JVal.obj [] →
       fix_json_response rf le content ["terms"] = JVal.obj [("terms", JVal.arr [])]) ∧
    (loads (method2Clean content) = none → process_api_response content = some []) := by
  refine ⟨?_, ?_, ?_, ?_⟩
  · rcases aux_ensure_obj (try_parse_json_object rf le (trimContent content)).2
        (trimContent content) keys with ⟨m0, hm0⟩
    cases keys with
    | nil =>
      refine ⟨m0, ?_⟩
      simp only [fix_json_response]
      rw [hm0]
      rfl
    | cons k ks => exact ⟨addMissingKeys m0 (k :: ks), aux_fix_eq rf le content k ks m0 hm0⟩
  · intro h
    simp only [fix_json_response]
    rw [h]
    rfl
  · intro h
    have hfix := aux_fix_eq rf le content "terms" [] []
      (by rw [h]; rfl)
    exact hfix
  · intro h
    by_cases he : content = "" ∨ pyStrip content = ""
    · simp only [process_api_response, if_pos he]
    · simp only [process_api_response, if_neg he]
      rw [h]

theorem c2_repair_never_fails_witness :
    ((try_parse_json_object repair_json noLitEval (trimContent "no json here")).2
        = JVal.obj []) ∧
    fix_json_response repair_json noLitEval "no json here" [] = JVal.obj [] ∧
    fix_json_response repair_json noLitEval "no json here" ["terms"]
      = JVal.obj [("terms", JVal.arr [])] ∧
    loads (method2Clean "no json here") = none ∧
    process_api_response "no json here" = some [] :=
  ⟨by rfl,
   (c2_repair_never_fails repair_json noLitEval "no json here" []).2.1 (by rfl),
   (c2_repair_never_fails repair_json noLitEval "no json here" ["terms"]).2.2.1 (by rfl),
   by rfl,
   (c2_repair_never_fails repair_json noLitEval "no json here" []).2.2.2 (by rfl)⟩

/-- Claim C4, amended: an id of the form `request-row<suffix>` has every
occurrence of "request-row" removed (so `request-row<N>` with a digit
suffix resolves to `N`); an id that does not start with "request-row"
but contains a hyphen with an all-digit segment before it resolves to
that segment (this middle branch refutes the claim as stated); every
other id passes through unchanged. -/
theorem c4_correlation_id_amended :
    (∀ ds : List Char, (∀ c ∈ ds, c.isDigit) →
        parseRowId (String.mk ("request-row".toList ++ ds)) = String.mk ds) ∧
    (∀ cid : String, pyStartsWith "request-row" cid = false →
        containsHyphen cid.toList = true →
        pyIsDigitStr (beforeHyphen cid.toList) = true →
        parseRowId cid = String.mk (beforeHyphen cid.toList)) ∧
    (∀ cid : String, pyStartsWith "request-row" cid = false →
        (containsHyphen cid.toList = false ∨ pyIsDigitStr (beforeHyphen cid.toList) = false) →
        parseRowId cid = cid) := by
  refine ⟨?_, ?_, ?_⟩
  · intro ds hds
    have hpre : pyStartsWith "request-row" (String.mk ("request-row".toList ++ ds)) = true := by
      show isPrefixList ("request-row".toList) ("request-row".toList ++ ds) = true
      exact aux_isPrefix_append _ _
    have hrepl : replaceList ("request-row".toList) [] ("request-row".toList ++ ds) = ds := by
      show replaceAux ("request-row".toList) [] 0 ("request-row".toList ++ ds) = ds
      have h1 : ("request-row".toList) = 'r' :: ("equest-row".toList) := rfl
      rw [h1]
      rw [aux_replace_head]
      have h2 : ∀ c ∈ ds, c ≠ 'r' := by
        intro c hc heq
        have hd := hds c hc
        rw [heq] at hd
        exact absurd hd (by decide)
      rw [aux_replace_no_occur 'r' ("equest-row".toList) [] ds h2]
      rfl
    unfold parseRowId
    rw [if_pos hpre]
    show String.mk (replaceList ("request-row".toList) [] ("request-row".toList ++ ds))
        = String.mk ds
    rw [hrepl]
  · intro cid hstart hhyph hdig
    simp only [parseRowId]
    rw [if_neg (by simp [hstart]),
      if_pos (by rw [Bool.and_eq_true]; exact ⟨hhyph, hdig⟩)]
  · intro cid hstart hother
    simp only [parseRowId]
    rw [if_neg (by simp [hstart]), if_neg ?hcond]
    case hcond =>
      rw [Bool.and_eq_true]
      rintro ⟨ha, hb⟩
      rcases hother with h | h
      · rw [h] at ha; exact nomatch ha
      · rw [h] at hb; exact nomatch hb

/-- Claim C4, counterexample: the correlation id "12-34" is not of the
form `request-row<N>`, yet it is not passed through unchanged — the code
rewrites it to "12". -/
theorem c4_correlation_id_counterexample :
    pyStartsWith "request-row" "12-34" = false ∧
    parseRowId "12-34" = "12" ∧ ("12" : String) ≠ "12-34" := by
  refine ⟨by decide, by decide, by decide⟩

theorem c4_correlation_id_witness :
    ((∀ c ∈ (['4', '2'] : List Char), c.isDigit) ∧
      parseRowId (String.mk ("request-row".toList ++ ['4', '2'])) = String.mk ['4', '2']) ∧
    (pyStartsWith "request-row" "7-x" = false ∧ containsHyphen ("7-x").toList = true ∧
      pyIsDigitStr (beforeHyphen ("7-x").toList) = true ∧
      parseRowId "7-x" = String.mk (beforeHyphen ("7-x").toList)) ∧
    (pyStartsWith "request-row" "opaque" = false ∧
      containsHyphen ("opaque").toList = false ∧
      parseRowId "opaque" = "opaque") :=
  ⟨⟨by decide, c4_correlation_id_amended.1 ['4', '2'] (by decide)⟩,
   ⟨by decide, by decide, by decide,
    c4_correlation_id_amended.2.1 "7-x" (by decide) (by decide) (by decide)⟩,
   ⟨by decide, by decide,
    c4_correlation_id_amended.2.2 "opaque" (by decide) (Or.inl (by decide))⟩⟩

/-- Claim C5, amended: on input whose direct parse succeeds with a truthy
value, the repair chain `try_parse_json_object` is the identity up to
parsing — it returns the input string and its direct parse unchanged,
for every repair-library/literal-evaluator instantiation.  At the
`fix_json_response` level the parsed value survives only when it is a
JSON object: lists and scalars are wrapped into a dict (see the
counterexample), which is what refutes the claim as stated. -/
theorem c5_repair_identity_amended (rf : String → String) (le : String → Option JVal)
    (s : String) (v : JVal) (h1 : loads s = some v) (h2 : truthy v = true) :
    try_parse_json_object rf le s = (s, v) := by
  have hs : s ≠ "" := by
    intro heq
    rw [heq, show loads "" = (none : Option JVal) from rfl] at h1
    exact nomatch h1
  unfold try_parse_json_object
  rw [if_neg hs, h1]
  simp [h2]

/-- Claim C5, counterexample: "[1]" is well-formed structured data whose
direct parse is the list `[1]`, yet the repair entry point returns the
wrapped dict `{"terms": [1]}`, not a value equal to the direct parse. -/
theorem c5_repair_identity_counterexample :
    loads "[1]" = some (JVal.arr [JVal.num 1]) ∧
    fix_json_response repair_json noLitEval "[1]" ["terms"]
      = JVal.obj [("terms", JVal.arr [JVal.num 1])] ∧
    JVal.obj [("terms", JVal.arr [JVal.num 1])] ≠ JVal.arr [JVal.num 1] := by
  refine ⟨by rfl, by rfl, fun h => nomatch h⟩

theorem c5_repair_identity_witness :
    loads "[1]" = some (JVal.arr [JVal.num 1]) ∧
    truthy (JVal.arr [JVal.num 1]) = true ∧
    try_parse_json_object repair_json noLitEval "[1]" = ("[1]", JVal.arr [JVal.num 1]) :=
  ⟨by rfl, by rfl,
   c5_repair_identity_amended repair_json noLitEval "[1]" (JVal.arr [JVal.num 1])
     (by rfl) (by rfl)⟩

/-- Claim C6, amended: when every input row is skipped (all texts empty or
whitespace-only after trimming), `prepare_batch_jsonl` returns a payload
with zero records but signals no "empty batch" condition, and
`process_data` proceeds to upload and submit the empty job — the
explicit empty-batch failure the specification requires does not exist
in the code (see the counterexample). -/
theorem c6_empty_batch_amended (stop : Nat → Bool) (rows : List String)
    (h : ∀ t ∈ rows, pyStrip t = "") :
    prepare_batch_jsonl stop rows = [] ∧
    submitBatch stop rows = SubmitOutcome.uploaded [] := by
  have main : ∀ (rs : List String), (∀ t ∈ rs, pyStrip t = "") →
      ∀ idx, prepareRows stop idx rs = [] := by
    intro rs
    induction rs with
    | nil => intro _ idx; rfl
    | cons t rest ih =>
      intro hh idx
      have ht : pyStrip t = "" := hh t (List.mem_cons_self t rest)
      by_cases hstop : stop idx = true
      · simp [prepareRows, hstop]
      · simp [prepareRows, hstop, ht,
          ih (fun x hx => hh x (List.mem_cons_of_mem t hx)) (idx + 1)]
  refine ⟨main rows h 0, ?_⟩
  unfold submitBatch prepare_batch_jsonl
  rw [main rows h 0]

/-- Claim C6, counterexample: with both rows blank the builder returns the
normal zero-record payload and the caller still uploads it — the outcome
is `uploaded []`, not any empty-batch rejection. -/
theorem c6_empty_batch_counterexample :
    prepare_batch_jsonl neverStop ["", "   "] = [] ∧
    submitBatch neverStop ["", "   "] = SubmitOutcome.uploaded [] ∧
    submitBatch neverStop ["", "   "] ≠ SubmitOutcome.emptyBatchRejected := by
  refine ⟨by decide, by decide, by decide⟩

theorem c6_empty_batch_witness :
    (∀ t ∈ ([" ", "\t"] : List String), pyStrip t = "") ∧
    (prepare_batch_jsonl neverStop [" ", "\t"] = [] ∧
      submitBatch neverStop [" ", "\t"] = SubmitOutcome.uploaded []) :=
  ⟨by decide, c6_empty_batch_amended neverStop [" ", "\t"] (by decide)⟩

theorem aux_lookupS_append (k : String) :
    ∀ (b b2 : List (String × String)), lookupS k b = none → lookupS k (b ++ b2) = lookupS k b2 := by
  intro b
  induction b with
  | nil => intro b2 _; rfl
  | cons p rest ih =>
    intro b2 h
    obtain ⟨k2, v⟩ := p
    by_cases hk : k2 = k
    · simp [lookupS, hk] at h
    · simp only [lookupS, if_neg hk] at h
      simp only [List.cons_append, lookupS, if_neg hk]
      exact ih b2 h

theorem aux_lookupS_tc (o1 o2 : Option String) :
    lookupS "term" (optPair "term" none ++ optPair "type" o1 ++ optPair "context" o2)
      = none := by
  cases o1 <;> cases o2 <;> rfl

theorem aux_lookupS_tc2 (o1 o2 : Option String) :
    lookupS "term" (optPair "type" o1 ++ optPair "context" o2) = none := by
  cases o1 <;> cases o2 <;> rfl

theorem aux_normalize_obj_term (m : List (String × JVal)) (s : String)
    (hres : resolveField termSynKeys m = some s) :
    normalize_term (JVal.obj m)
      = ("term", s) :: (optPair "type" (resolveField typeSynKeys m)
          ++ optPair "context" (resolveField contextSynKeys m)) := by
  simp only [normalize_term]
  rw [hres]
  simp [optPair, lookupS]

theorem aux_normalize_obj_fallback (m : List (String × JVal))
    (hres : resolveField termSynKeys m = none) :
    normalize_term (JVal.obj m)
      = (optPair "type" (resolveField typeSynKeys m)
          ++ optPair "context" (resolveField contextSynKeys m))
        ++ [("term", match firstTruthy m with
              | some v => pyStr v
              | none => "未知术语")] := by
  simp only [normalize_term]
  rw [hres, aux_lookupS_tc (resolveField typeSynKeys m) (resolveField contextSynKeys m)]
  cases hft : firstTruthy m <;> simp [optPair]

/-- Claim C9: for every input string and every non-empty expected-keys
list, `fix_json_response` returns a dict in which every expected key is
present; a list parse result is wrapped under the first expected key, a
dict parse result is kept with its bindings intact, any other result is
wrapped in the error-shaped dict, and in each case the still-missing
expected keys are appended with an empty list as value. -/
theorem c9_expected_keys_shape (rf : String → String) (le : String → Option JVal)
    (content : String) (k : String) (ks : List String) :
    (∃ m, fix_json_response rf le content (k :: ks) = JVal.obj m ∧
        ∀ key ∈ k :: ks, (lookupA key m).isSome = true) ∧
    (∀ l, (try_parse_json_object rf le (trimContent content)).2 = JVal.arr l →
        fix_json_response rf le content (k :: ks)
          = JVal.obj (addMissingKeys [(k, JVal.arr l)] (k :: ks))) ∧
    (∀ m0, (try_parse_json_object rf le (trimContent content)).2 = JVal.obj m0 →
        fix_json_response rf le content (k :: ks)
            = JVal.obj (addMissingKeys m0 (k :: ks)) ∧
          ∀ key v, lookupA key m0 = some v →
            lookupA key (addMissingKeys m0 (k :: ks)) = some v) ∧
    ((∀ m0, (try_parse_json_object rf le (trimContent content)).2 ≠ JVal.obj m0) →
     (∀ l, (try_parse_json_object rf le (trimContent content)).2 ≠ JVal.arr l) →
        fix_json_response rf le content (k :: ks)
          = JVal.obj (addMissingKeys
              [("error", JVal.str "返回的不是JSON对象"),
               ("content", JVal.str (trimContent content))] (k :: ks))) := by
  refine ⟨?_, ?_, ?_, ?_⟩
  · rcases aux_ensure_obj (try_parse_json_object rf le (trimContent content)).2
        (trimContent content) (k :: ks) with ⟨m0, hm0⟩
    exact ⟨addMissingKeys m0 (k :: ks), aux_fix_eq rf le content k ks m0 hm0,
      fun key hkey => aux_addMissing_mem key (k :: ks) m0 hkey⟩
  · intro l hl
    apply aux_fix_eq
    rw [hl]
    rfl
  · intro m0 hm
    refine ⟨aux_fix_eq rf le content k ks m0 (by rw [hm]; rfl), ?_⟩
    intro key v hv
    rw [aux_addMissing_lookup_eq key (k :: ks) m0 (by simp [hv])]
    exact hv
  · intro hobj harr
    apply aux_fix_eq
    cases hchain : (try_parse_json_object rf le (trimContent content)).2 with
    | obj m1 => exact absurd hchain (hobj m1)
    | arr l => exact absurd hchain (harr l)
    | null => rfl
    | bool b => rfl
    | num n => rfl
    | str s2 => rfl

theorem c9_expected_keys_shape_witness :
    ((try_parse_json_object repair_json noLitEval (trimContent "\"abc\"")).2
        = JVal.str "abc") ∧
    fix_json_response repair_json noLitEval "\"abc\"" ["terms"]
      = JVal.obj (addMissingKeys
          [("error", JVal.str "返回的不是JSON对象"),
           ("content", JVal.str (trimContent "\"abc\""))] ["terms"]) :=
  ⟨by rfl,
   (c9_expected_keys_shape repair_json noLitEval "\"abc\"" "terms" []).2.2.2
     (fun m0 h => nomatch h) (fun l h => nomatch h)⟩

/-- Claim C10: every record produced by `_normalize_term` is a dict
containing the key "term" with a string value: a bare string becomes
`{term: value}`; a mapping with no resolvable term field falls back to
its first truthy value; with no truthy value at all the sentinel
"未知术语" is used — the "term" key is never absent. -/
theorem c10_term_key_invariant (td : JVal) :
    (∃ s, lookupS "term" (normalize_term td) = some s) ∧
    (∀ v, td = JVal.str v → normalize_term td = [("term", v)]) ∧
    (∀ m, td = JVal.obj m → resolveField termSynKeys m = none →
       ∀ v, firstTruthy m = some v →
         lookupS "term" (normalize_term td) = some (pyStr v)) ∧
    (∀ m, td = JVal.obj m → resolveField termSynKeys m = none → firstTruthy m = none →
       lookupS "term" (normalize_term td) = some "未知术语") := by
  cases td with
  | str s =>
    refine ⟨⟨s, rfl⟩, ?_, ?_, ?_⟩
    · intro v hv
      injection hv with h
      rw [h]
      rfl
    · intro m hm; exact nomatch hm
    · intro m hm; exact nomatch hm
  | obj m =>
    refine ⟨?_, ?_, ?_, ?_⟩
    · cases hres : resolveField termSynKeys m with
      | some s =>
        refine ⟨s, ?_⟩
        rw [aux_normalize_obj_term m s hres]
        simp [lookupS]
      | none =>
        refine ⟨match firstTruthy m with
                | some v => pyStr v
                | none => "未知术语", ?_⟩
        rw [aux_normalize_obj_fallback m hres,
          aux_lookupS_append "term" _ _ (aux_lookupS_tc2 _ _)]
        rfl
    · intro v hv; exact nomatch hv
    · intro m2 hm2 hres v hft
      injection hm2 with h
      subst h
      rw [aux_normalize_obj_fallback m hres,
        aux_lookupS_append "term" _ _ (aux_lookupS_tc2 _ _), hft]
      rfl
    · intro m2 hm2 hres hft
      injection hm2 with h
      subst h
      rw [aux_normalize_obj_fallback m hres,
        aux_lookupS_append "term" _ _ (aux_lookupS_tc2 _ _), hft]
      rfl
  | null =>
    refine ⟨⟨pyStr JVal.null, rfl⟩, ?_, ?_, ?_⟩
    · intro v hv; exact nomatch hv
    · intro m hm; exact nomatch hm
    · intro m hm; exact nomatch hm
  | bool b =>
    refine ⟨⟨pyStr (JVal.bool b), rfl⟩, ?_, ?_, ?_⟩
    · intro v hv; exact nomatch hv
    · intro m hm; exact nomatch hm
    · intro m hm; exact nomatch hm
  | num n =>
    refine ⟨⟨pyStr (JVal.num n), rfl⟩, ?_, ?_, ?_⟩
    · intro v hv; exact nomatch hv
    · intro m hm; exact nomatch hm
    · intro m hm; exact nomatch hm
  | arr l =>
    refine ⟨⟨pyStr (JVal.arr l), rfl⟩, ?_, ?_, ?_⟩
    · intro v hv; exact nomatch hv
    · intro m hm; exact nomatch hm
    · intro m hm; exact nomatch hm

theorem c10_term_key_invariant_witness :
    (resolveField termSynKeys [("foo", JVal.str "X")] = none) ∧
    (firstTruthy [("foo", JVal.str "X")] = some (JVal.str "X")) ∧
    lookupS "term" (normalize_term (JVal.obj [("foo", JVal.str "X")]))
      = some (pyStr (JVal.str "X")) :=
  ⟨by rfl, by rfl,
   (c10_term_key_invariant (JVal.obj [("foo", JVal.str "X")])).2.2.1
     [("foo", JVal.str "X")] rfl (by rfl) (JVal.str "X") (by rfl)⟩

end TE
